import Mathlib

/-!
Verification of the render_stl rendering pipeline.

This file gives a shallow embedding of the repository's Rust code:
`f32` arithmetic is modelled by the real numbers `ℝ`, the cgmath
vector/point/matrix types become structures of reals, and fallible
functions return `Except`/`Option`.  Definitions follow the source
functions of the crates `ray_tracer`, `mesh`, `render_stl` and the
early `src` crate (plane/sphere shapes, efloat) line by line.
-/

noncomputable section

namespace RenderStl

/-- A 2D point (cgmath `Point2<S>`). -/
structure Point2 (α : Type) where
  x : α
  y : α
deriving Repr

/-- A 3D vector (cgmath `Vector3<f32>`), over the real-number model of `f32`. -/
@[ext]
structure Vector3 where
  x : ℝ
  y : ℝ
  z : ℝ

/-- A 3D point (cgmath `Point3<f32>`). -/
@[ext]
structure Point3 where
  x : ℝ
  y : ℝ
  z : ℝ

namespace Vector3

/-- Componentwise vector addition. -/
instance : Add Vector3 where
  add a b := ⟨a.x + b.x, a.y + b.y, a.z + b.z⟩

/-- Componentwise vector subtraction. -/
instance : Sub Vector3 where
  sub a b := ⟨a.x - b.x, a.y - b.y, a.z - b.z⟩

/-- Scalar-times-vector multiplication (`s * v` in cgmath). -/
instance : HMul ℝ Vector3 Vector3 where
  hMul s v := ⟨s * v.x, s * v.y, s * v.z⟩

/-- Vector-times-scalar multiplication (`v * s` in cgmath). -/
instance : HMul Vector3 ℝ Vector3 where
  hMul v s := ⟨v.x * s, v.y * s, v.z * s⟩

/-- The dot product of two vectors (`InnerSpace::dot`). -/
def dot (a b : Vector3) : ℝ :=
  a.x * b.x + a.y * b.y + a.z * b.z

/-- The squared magnitude of a vector (`InnerSpace::magnitude2`). -/
def magnitude2 (v : Vector3) : ℝ := v.dot v

/-- The magnitude of a vector (`InnerSpace::magnitude`). -/
def magnitude (v : Vector3) : ℝ := Real.sqrt v.magnitude2

/-- cgmath `InnerSpace::normalize`: `self * (1 / self.magnitude())`. -/
def normalize (v : Vector3) : Vector3 := v * ((1 : ℝ) / v.magnitude)

/-- The cross product of two vectors (`Vector3::cross`). -/
def cross (a b : Vector3) : Vector3 :=
  ⟨a.y * b.z - a.z * b.y, a.z * b.x - a.x * b.z, a.x * b.y - a.y * b.x⟩

end Vector3

namespace Point3

/-- Point minus point yields the vector between them (cgmath `Sub` on points). -/
instance : HSub Point3 Point3 Vector3 where
  hSub a b := ⟨a.x - b.x, a.y - b.y, a.z - b.z⟩

/-- Point plus vector yields a translated point. -/
instance : HAdd Point3 Vector3 Point3 where
  hAdd p v := ⟨p.x + v.x, p.y + v.y, p.z + v.z⟩

end Point3

/-- A 4×4 matrix (cgmath `Matrix4<f32>`), entry `mij` at row `i`, column `j`. -/
structure Matrix4 where
  m00 : ℝ
  m01 : ℝ
  m02 : ℝ
  m03 : ℝ
  m10 : ℝ
  m11 : ℝ
  m12 : ℝ
  m13 : ℝ
  m20 : ℝ
  m21 : ℝ
  m22 : ℝ
  m23 : ℝ
  m30 : ℝ
  m31 : ℝ
  m32 : ℝ
  m33 : ℝ

namespace Matrix4

/-- The identity matrix (`identity4`, `identities::one()`). -/
def identity : Matrix4 :=
  ⟨1, 0, 0, 0,
   0, 1, 0, 0,
   0, 0, 1, 0,
   0, 0, 0, 1⟩

/-- Matrix transpose (cgmath `Matrix::transpose`). -/
def transpose (m : Matrix4) : Matrix4 :=
  ⟨m.m00, m.m10, m.m20, m.m30,
   m.m01, m.m11, m.m21, m.m31,
   m.m02, m.m12, m.m22, m.m32,
   m.m03, m.m13, m.m23, m.m33⟩

/-- cgmath `Matrix4::transform_vector`: multiply with homogeneous coordinate 0
and truncate. -/
def transformVector (m : Matrix4) (v : Vector3) : Vector3 :=
  ⟨m.m00 * v.x + m.m01 * v.y + m.m02 * v.z,
   m.m10 * v.x + m.m11 * v.y + m.m12 * v.z,
   m.m20 * v.x + m.m21 * v.y + m.m22 * v.z⟩

/-- cgmath `Matrix4::transform_point`: multiply with homogeneous coordinate 1,
then divide by the resulting `w` component (`Point3::from_homogeneous`). -/
def transformPoint (m : Matrix4) (p : Point3) : Point3 :=
  let w := m.m30 * p.x + m.m31 * p.y + m.m32 * p.z + m.m33
  ⟨(m.m00 * p.x + m.m01 * p.y + m.m02 * p.z + m.m03) * (1 / w),
   (m.m10 * p.x + m.m11 * p.y + m.m12 * p.z + m.m13) * (1 / w),
   (m.m20 * p.x + m.m21 * p.y + m.m22 * p.z + m.m23) * (1 / w)⟩

/-- cgmath `Matrix4::from_translation`. -/
def from_translation (v : Vector3) : Matrix4 :=
  ⟨1, 0, 0, v.x,
   0, 1, 0, v.y,
   0, 0, 1, v.z,
   0, 0, 0, 1⟩

/-- cgmath `Matrix4::from_scale`. -/
def from_scale (s : ℝ) : Matrix4 :=
  ⟨s, 0, 0, 0,
   0, s, 0, 0,
   0, 0, s, 0,
   0, 0, 0, 1⟩

/-- cgmath `Matrix4::from_nonuniform_scale`. -/
def from_nonuniform_scale (sx sy sz : ℝ) : Matrix4 :=
  ⟨sx, 0, 0, 0,
   0, sy, 0, 0,
   0, 0, sz, 0,
   0, 0, 0, 1⟩

end Matrix4

namespace RayTracer

/-- `ray_tracer::ray::Ray`: origin, direction (intentionally not normalized)
and the upper parametric bound `t_max`. -/
structure Ray where
  origin : Point3
  direction : Vector3
  t_max : ℝ

/-- `Ray::at_t`: the position along the ray for parametric value `t`,
`self.origin + self.direction * t`. -/
def Ray.at_t (r : Ray) (t : ℝ) : Point3 :=
  r.origin + r.direction * t

end RayTracer

namespace EFloat

/-- `f32::EPSILON`, the machine epsilon of the `f32` type, `2⁻²³`. -/
def f32Epsilon : ℝ := (2 : ℝ) ^ (-23 : ℤ)

/-- `efloat::gamma`: conservative bound on polynomial error accumulation,
`n as f32 * f32::EPSILON / (1.0 - n as f32 * f32::EPSILON)`. -/
def gamma (n : ℤ) : ℝ :=
  (n : ℝ) * f32Epsilon / (1 - (n : ℝ) * f32Epsilon)

end EFloat

namespace Trace

/-- The early crate's `Ray`: origin and direction only (no `t_max`). -/
structure Ray where
  origin : Point3
  direction : Vector3

/-- The early crate's `Ray::at_t`: `self.origin + self.direction * t`. -/
def Ray.at_t (r : Ray) (t : ℝ) : Point3 :=
  r.origin + r.direction * t

/-- `transform::Transform` of a `Matrix4` applied to a `Ray`: transform the
origin as a point and the direction as a vector, leaving the direction
unnormalized. -/
def transformRay (m : Matrix4) (r : Ray) : Ray :=
  { origin := m.transformPoint r.origin
    direction := m.transformVector r.direction }

namespace Plane

/-- The `SurfaceInteraction` record built by `shape/plane.rs`: world-space
point, negated ray direction and surface normal. -/
structure SurfaceInteraction where
  point : Point3
  neg_ray_direction : Vector3
  normal : Vector3

/-- `plane::normal`: the plane's normal in world space, the object-space
normal `(0,1,0)` pushed through the transposed world-to-object matrix and
normalized; the `reverse_orientation` branch multiplies by `1.0`. -/
def normal (world_to_object : Matrix4) (reverse_orientation : Bool) : Vector3 :=
  let obj_n : Vector3 := ⟨0, 1, 0⟩
  let n := (world_to_object.transpose.transformVector obj_n).normalize
  if reverse_orientation then n * (1 : ℝ) else n

/-- `plane::ray_intersections`: transform the ray to object space; if the
object-space direction's `y` component is within `0.0001` of zero, report no
intersections, otherwise solve for `t` and build one interaction. -/
def ray_intersections (ray : Ray) (object_to_world world_to_object : Matrix4)
    (reverse_orientation : Bool) : List (ℝ × SurfaceInteraction) :=
  let obj_ray := transformRay world_to_object ray
  if |obj_ray.direction.y| < 0.0001 then
    []
  else
    let t := -1 * ray.origin.y / ray.direction.y
    let obj_p := obj_ray.at_t t
    let world_p := object_to_world.transformPoint obj_p
    [(t, { point := world_p
           neg_ray_direction := (-1 : ℝ) * ray.direction
           normal := normal world_to_object reverse_orientation })]

end Plane

/-- A sphere shape (`shape.rs`): the unit sphere at the origin of object
space, carrying its object-to-world and world-to-object matrices. -/
structure Sphere where
  object_to_world : Matrix4
  world_to_object : Matrix4

/-- The `SurfaceInteraction` record of `shape.rs`, which holds only a
reference to the intersected shape. -/
structure SphereSurfaceInteraction where
  shape : Sphere

/-- One ray/shape intersection of `intersection.rs`: a parametric value `t`
and the surface interaction. -/
structure Intersection where
  t : ℝ
  interaction : SphereSurfaceInteraction

/-- The ordered collection of intersections of `intersection.rs`. -/
structure Intersections where
  values : List Intersection

/-- `Intersections::empty`. -/
def Intersections.empty : Intersections := ⟨[]⟩

/-- `Intersections::new`. -/
def Intersections.new (values : List Intersection) : Intersections := ⟨values⟩

/-- `Sphere::ray_intersections`: solve the quadratic
`a·t² + b·t + c = 0` for the unit sphere at the origin, returning no
intersections when the discriminant is negative and the two roots (smaller
first) otherwise. -/
def Sphere.ray_intersections (s : Sphere) (ray : Ray) : Intersections :=
  let sphere_to_ray : Vector3 := ray.origin - (⟨0, 0, 0⟩ : Point3)
  let a := ray.direction.dot ray.direction
  let b := 2 * ray.direction.dot sphere_to_ray
  let c := sphere_to_ray.dot sphere_to_ray - 1
  let discriminant := b * b - 4 * a * c
  if discriminant < 0 then
    Intersections.empty
  else
    let t1 := (-1 * b - Real.sqrt discriminant) / (2 * a)
    let t2 := (-1 * b + Real.sqrt discriminant) / (2 * a)
    let intr1 : Intersection := ⟨t1, ⟨s⟩⟩
    let intr2 : Intersection := ⟨t2, ⟨s⟩⟩
    Intersections.new [intr1, intr2]

end Trace

/-- Modelled from the spec: the `ray_tracer::color::RgbaSpectrum` type (its
source file is not part of the extracted sources).  A radiance value with
red, green, blue and alpha channels; all arithmetic is componentwise, per
the spec's description of radiance as per-channel light intensity. -/
@[ext]
structure RgbaSpectrum where
  r : ℝ
  g : ℝ
  b : ℝ
  a : ℝ

namespace RgbaSpectrum

/-- Modelled from the spec: the transparent/background color. -/
def transparent : RgbaSpectrum := ⟨0, 0, 0, 0⟩

/-- Modelled from the spec: opaque black, a zero radiance contribution. -/
def black : RgbaSpectrum := ⟨0, 0, 0, 1⟩

/-- Modelled from the spec: a spectrum with every channel set to `c`. -/
def constant (c : ℝ) : RgbaSpectrum := ⟨c, c, c, c⟩

/-- Modelled from the spec: an opaque color from red, green and blue. -/
def from_rgb (r g b : ℝ) : RgbaSpectrum := ⟨r, g, b, 1⟩

/-- Componentwise spectrum addition. -/
instance : Add RgbaSpectrum where
  add s t := ⟨s.r + t.r, s.g + t.g, s.b + t.b, s.a + t.a⟩

/-- Componentwise spectrum multiplication. -/
instance : Mul RgbaSpectrum where
  mul s t := ⟨s.r * t.r, s.g * t.g, s.b * t.b, s.a * t.a⟩

/-- Spectrum scaled by a scalar on the right. -/
instance : HMul RgbaSpectrum ℝ RgbaSpectrum where
  hMul s c := ⟨s.r * c, s.g * c, s.b * c, s.a * c⟩

/-- Spectrum scaled by a scalar on the left. -/
instance : HMul ℝ RgbaSpectrum RgbaSpectrum where
  hMul c s := ⟨c * s.r, c * s.g, c * s.b, c * s.a⟩

/-- Spectrum divided by a scalar. -/
instance : HDiv RgbaSpectrum ℝ RgbaSpectrum where
  hDiv s c := ⟨s.r / c, s.g / c, s.b / c, s.a / c⟩

end RgbaSpectrum

namespace RayTracer

/-- `ray_tracer::geometry::vector::reflect`, modelled from the spec: the
mirror reflection of a vector about a surface normal,
`v - n * (2 * v.dot(n))` (its source file is not part of the extracted
sources). -/
def reflect (v n : Vector3) : Vector3 :=
  v - n * (2 * v.dot n)

/-- `ray_tracer::interaction::SurfaceGeometry`: the normal and the partial
derivatives of position with respect to the two surface parameters. -/
structure SurfaceGeometry where
  normal : Vector3
  dpdu : Vector3
  dpdv : Vector3

/-- `ray_tracer::interaction::SurfaceInteraction`: world-space hit point,
conservative floating-point error bound for it, the negated ray direction,
and the original and shading copies of the surface geometry. -/
structure SurfaceInteraction where
  point : Point3
  point_error_bound : Vector3
  neg_ray_direction : Vector3
  original_geometry : SurfaceGeometry
  shading_geometry : SurfaceGeometry

/-- `light::LightFlags`, a `u8` bit-flag set. -/
def LightFlags : Type := ℕ

/-- `LightFlags::DELTA_POSITION = 0b00000001`. -/
def LightFlags.DELTA_POSITION : LightFlags := (1 : ℕ)

/-- `light::point::PointLight`: position in world space and the power
emitted per unit solid angle. -/
structure PointLight where
  position : Point3
  intensity : RgbaSpectrum

namespace PointLight

/-- `PointLight::li`: incident radiance `intensity / |position − point|²`
together with the normalized direction from the interaction point toward
the light. -/
def li (pl : PointLight) (interaction : SurfaceInteraction) :
    RgbaSpectrum × Vector3 :=
  let light_to_point := pl.position - interaction.point
  let l := pl.intensity / light_to_point.magnitude2
  let wi := light_to_point.normalize
  (l, wi)

/-- `PointLight::power`: `4.0 * PI * self.intensity`. -/
def power (pl : PointLight) : RgbaSpectrum :=
  4 * Real.pi * pl.intensity

/-- `PointLight::flags`: the delta-position flag. -/
def flags (_pl : PointLight) : LightFlags :=
  LightFlags.DELTA_POSITION

end PointLight

/-- The closed `light::Light` variant set (point light only). -/
inductive Light where
  | pointLight (pl : PointLight)

namespace Light

/-- `Light::li`: dispatch to the variant's incident-radiance evaluation. -/
def li (l : Light) (interaction : SurfaceInteraction) :
    RgbaSpectrum × Vector3 :=
  match l with
  | .pointLight pl => pl.li interaction

/-- `Light::sample_li`: the incident radiance and direction from `li`
together with probability weight `1.0`; the sample point `u` is unused. -/
def sample_li (l : Light) (interaction : SurfaceInteraction)
    (_u : Point2 ℝ) : RgbaSpectrum × Vector3 × ℝ :=
  let (radiance, wi) := l.li interaction
  (radiance, wi, 1)

/-- `Light::power`: dispatch to the variant's power approximation. -/
def power (l : Light) : RgbaSpectrum :=
  match l with
  | .pointLight pl => pl.power

/-- `Light::flags`: dispatch to the variant's flag set. -/
def flags (l : Light) : LightFlags :=
  match l with
  | .pointLight pl => pl.flags

end Light

/-- `simple::Material` as constructed by `render_stl::load_material`: a
color plus ambient, diffuse, specular, shininess and reflective
coefficients (its source file is not part of the extracted sources; the
fields are those used by `simple/ray_tracer.rs` and `load_material`). -/
structure Material where
  color : RgbaSpectrum
  ambient : ℝ
  diffuse : ℝ
  specular : ℝ
  shininess : ℝ
  reflective : ℝ

/-- Modelled from the spec: a `Primitive` binds one piece of geometry to
one material; only the material is consulted by the shading code under
verification, so the geometry itself is left abstract. -/
structure Primitive where
  material : Material

/-- Modelled from the spec: the `PrimitiveAggregate` nearest-hit contract,
`ray_intersection(ray) -> optional (t, primitive, SurfaceInteraction)` (its
source file is not part of the extracted sources). -/
structure PrimitiveAggregate where
  ray_intersection : Ray → Option (ℝ × Primitive × SurfaceInteraction)

/-- `simple::Scene`: a primitive aggregate plus the light list. -/
structure Scene where
  primitives : PrimitiveAggregate
  lights : List Light

namespace OriginalRayTracer

/-- `OriginalRayTracer::shading`: the Phong shading term contributed by one
light, `ambient + diffuse + specular` with the diffuse and specular parts
zeroed when the light is behind the surface, and the specular part zeroed
unless the reflection is visible. -/
def shading (material : Material) (light : Light)
    (interaction : SurfaceInteraction) : RgbaSpectrum :=
  let (incident_light, to_light) := light.li interaction
  let effective_color := material.color * incident_light
  let ambient := effective_color * material.ambient
  let light_dot_normal := to_light.dot interaction.original_geometry.normal
  let (diffuse, specular) :=
    if 0 ≤ light_dot_normal then
      let diffuse := effective_color * material.diffuse * light_dot_normal
      let refl := reflect ((-1 : ℝ) * to_light) interaction.original_geometry.normal
      let reflect_dot_eye := refl.dot interaction.neg_ray_direction
      let specular :=
        if reflect_dot_eye ≤ 0 then
          RgbaSpectrum.black
        else
          let factor := Real.rpow reflect_dot_eye material.shininess
          incident_light * material.specular * factor
      (diffuse, specular)
    else
      (RgbaSpectrum.black, RgbaSpectrum.black)
  ambient + diffuse + specular

/-- `OriginalRayTracer::shade_surface_interaction`: fold the per-light
shading terms over all lights, starting from the zero spectrum. -/
def shade_surface_interaction (scene : Scene)
    (interaction : SurfaceInteraction) (material : Material) : RgbaSpectrum :=
  scene.lights.foldl
    (fun color light => color + shading material light interaction)
    (RgbaSpectrum.constant 0)

/-- `OriginalRayTracer::color_at`: shade the nearest hit, or return the
transparent color when the nearest-hit query reports no hit. -/
def color_at (scene : Scene) (ray : Ray) : RgbaSpectrum :=
  match scene.primitives.ray_intersection ray with
  | some (_t, primitive, interaction) =>
      shade_surface_interaction scene interaction primitive.material
  | none => RgbaSpectrum.transparent

end OriginalRayTracer

/-- The sum of a list of spectra, used to state the specified shading
formula as a sum over all lights. -/
def sumSpectra : List RgbaSpectrum → RgbaSpectrum
  | [] => RgbaSpectrum.constant 0
  | s :: rest => s + sumSpectra rest

/-- The per-light radiance term as the specification words it: ambient plus
diffuse plus specular, where diffuse and specular are black when the cosine
between the direction to the light and the surface normal is negative, and
specular is additionally black unless the mirror reflection of the light
direction has positive cosine with the negated ray direction, in which case
that cosine is raised to the material's shininess exponent. -/
def specLightTerm (material : Material) (interaction : SurfaceInteraction)
    (light : Light) : RgbaSpectrum :=
  let (incident_light, to_light) := light.li interaction
  let n := interaction.original_geometry.normal
  let light_dot_normal := to_light.dot n
  let ambient := material.color * incident_light * material.ambient
  let diffuse :=
    if light_dot_normal < 0 then RgbaSpectrum.black
    else material.color * incident_light * material.diffuse * light_dot_normal
  let reflect_dot_eye :=
    (reflect ((-1 : ℝ) * to_light) n).dot interaction.neg_ray_direction
  let specular :=
    if light_dot_normal < 0 ∨ reflect_dot_eye ≤ 0 then RgbaSpectrum.black
    else incident_light * material.specular * Real.rpow reflect_dot_eye material.shininess
  ambient + diffuse + specular

/-- The radiance at a ray as the specification words it: if the nearest-hit
query returns a hit, the sum over all lights of the per-light term;
otherwise the transparent color. -/
def colorAtSpec (scene : Scene) (ray : Ray) : RgbaSpectrum :=
  match scene.primitives.ray_intersection ray with
  | some (_t, primitive, interaction) =>
      sumSpectra (scene.lights.map (specLightTerm primitive.material interaction))
  | none => RgbaSpectrum.transparent

/-- `camera::CameraSample`: a film-plane point in continuous pixel
coordinates, a time scalar and a lens point. -/
structure CameraSample where
  film_point : Point2 ℝ
  time : ℝ
  lens_point : Point2 ℝ

/-- The `IncrementalSampler` trait over an abstract sampler-state type `σ`:
each Rust method that mutates the sampler becomes a function returning the
updated state. -/
structure IncrementalSampler (σ : Type) where
  clone_with_seed : σ → ℕ → σ
  samples_per_pixel : σ → ℕ
  start_pixel : σ → Point2 ℤ → σ
  get_1d : σ → ℝ × σ
  get_2d : σ → Point2 ℝ × σ
  start_next_sample : σ → Bool × σ

/-- `IncrementalSampler::get_camera_sample` (provided trait method): consume
a 2D sample for the film point, then a 1D sample for the time, then a 2D
sample for the lens point, in that order; the Rust code destructures each
returned pair, modelled here with `Prod` projections. -/
def IncrementalSampler.get_camera_sample {σ : Type} (sampler : IncrementalSampler σ)
    (s : σ) (pixel : Point2 ℤ) : CameraSample × σ :=
  let film_sample := (sampler.get_2d s).1
  let s1 := (sampler.get_2d s).2
  let film_point : Point2 ℝ :=
    ⟨(pixel.x : ℝ) + film_sample.x, (pixel.y : ℝ) + film_sample.y⟩
  let time := (sampler.get_1d s1).1
  let s2 := (sampler.get_1d s1).2
  let lens_point := (sampler.get_2d s2).1
  let s3 := (sampler.get_2d s2).2
  ({ film_point := film_point, time := time, lens_point := lens_point }, s3)

end RayTracer

namespace MeshCrate

/-- One parsed STL triangle, as handed over by the external `nom_stl`
parser: a facet normal and three vertex positions. -/
structure StlTriangle where
  normal : Vector3
  vertices : Point3 × Point3 × Point3

/-- `mesh::Mesh`: vertex positions, per-vertex normals, optional UVs, index
triples into the position array, and the two orientation flags. -/
structure Mesh where
  positions : List Point3
  normals : List Vector3
  uvs : Option (List (Point2 ℝ))
  triangle_vertex_indices : List (ℕ × ℕ × ℕ)
  transformation_swaps_handedness : Bool
  reverse_orientation : Bool

/-- `Mesh::transform`: apply the matrix to every vertex position, and to
every normal followed by renormalization. -/
def Mesh.transform (m : Mesh) (transformation : Matrix4) : Mesh :=
  { m with
    positions := m.positions.map (fun p => transformation.transformPoint p)
    normals := m.normals.map (fun n => (transformation.transformVector n).normalize) }

/-- `Mesh::transform_swapping_handedness`: transform, then flip the
handedness flag. -/
def Mesh.transform_swapping_handedness (m : Mesh) (transformation : Matrix4) : Mesh :=
  let t := m.transform transformation
  { t with transformation_swaps_handedness := !t.transformation_swaps_handedness }

/-- `Mesh::bounding_box`: none for an empty position list, otherwise the
componentwise minimum and maximum corners accumulated over every position,
starting from the first position. -/
def Mesh.bounding_box (m : Mesh) : Option (Point3 × Point3) :=
  match m.positions with
  | [] => none
  | p0 :: _ =>
    some (m.positions.foldl
      (fun mm p =>
        let mn := mm.1
        let mx := mm.2
        (⟨if p.x < mn.x then p.x else mn.x,
          if p.y < mn.y then p.y else mn.y,
          if p.z < mn.z then p.z else mn.z⟩,
         ⟨if mx.x < p.x then p.x else mx.x,
          if mx.y < p.y then p.y else mx.y,
          if mx.z < p.z then p.z else mx.z⟩))
      (p0, p0))

/-- `mesh::MeshBuilder`: the mesh fields plus the transformation to apply
at build time. -/
structure MeshBuilder where
  positions : List Point3
  normals : List Vector3
  uvs : Option (List (Point2 ℝ))
  triangle_vertex_indices : List (ℕ × ℕ × ℕ)
  transformation : Matrix4
  transformation_swaps_handedness : Bool
  reverse_orientation : Bool

/-- `MeshBuilder::new`: no UVs, identity transformation, both flags false. -/
def MeshBuilder.new (positions : List Point3) (normals : List Vector3)
    (triangle_vertex_indices : List (ℕ × ℕ × ℕ)) : MeshBuilder :=
  { positions := positions
    normals := normals
    uvs := none
    triangle_vertex_indices := triangle_vertex_indices
    transformation := Matrix4.identity
    transformation_swaps_handedness := false
    reverse_orientation := false }

/-- `MeshBuilder::build`: assemble the mesh and apply the builder's
transformation. -/
def MeshBuilder.build (b : MeshBuilder) : Mesh :=
  (Mesh.mk b.positions b.normals b.uvs b.triangle_vertex_indices
    b.transformation_swaps_handedness b.reverse_orientation).transform
    b.transformation

/-- The position array written by the `from_stl` loop: the Rust code
preallocates `3·n` slots and writes the three vertices of triangle `i` at
indices `3i`, `3i+1` and `3i+2`, which this recursion reproduces. -/
def stlPositions : List StlTriangle → List Point3
  | [] => []
  | t :: rest => t.vertices.1 :: t.vertices.2.1 :: t.vertices.2.2 :: stlPositions rest

/-- The normal array written by the `from_stl` loop: the facet normal is
repeated for each of the triangle's three vertices. -/
def stlNormals : List StlTriangle → List Vector3
  | [] => []
  | t :: rest => t.normal :: t.normal :: t.normal :: stlNormals rest

/-- `MeshBuilder::from_stl`: build position, normal and index arrays from
the parsed triangle list; triangle `i` indexes its own three vertices at
`(3i, 3i+1, 3i+2)`.  Parsing the STL bytes is done by the external
`nom_stl` collaborator, so this function takes the parsed triangles. -/
def MeshBuilder.from_stl (triangles : List StlTriangle) : MeshBuilder :=
  MeshBuilder.new (stlPositions triangles) (stlNormals triangles)
    ((List.range triangles.length).map (fun i => (3 * i, 3 * i + 1, 3 * i + 2)))

end MeshCrate

namespace RenderStlCrate

/-- `config::Handedness`. -/
inductive Handedness where
  | leftHanded
  | rightHanded
deriving DecidableEq

/-- `config::Rgb`. -/
structure CfgRgb where
  r : ℝ
  g : ℝ
  b : ℝ

/-- `config::Spherical`: a position in spherical coordinates. -/
structure Spherical where
  radius : ℝ
  theta : ℝ
  phi : ℝ

/-- `config::Material`. -/
structure CfgMaterial where
  color : CfgRgb
  ambient : ℝ
  diffuse : ℝ
  specular : ℝ
  shininess : ℝ

/-- `config::Light`. -/
inductive CfgLight where
  | pointLight (position : Spherical) (intensity : CfgRgb)

/-- `config::Camera`. -/
inductive CfgCamera where
  | orthographicCamera (position : Spherical) (z_near z_far : ℝ)

/-- `config::Sampler`. -/
inductive CfgSampler where
  | stratifiedSampler (x_strata_count y_strata_count : ℕ) (jitter : Bool)

/-- `config::Config`: the rendering configuration. -/
structure Config where
  width : ℕ
  height : ℕ
  crop : Bool
  sampler : CfgSampler
  lights : List CfgLight
  camera : CfgCamera
  material : CfgMaterial
  handedness : Handedness

/-- `error::Error`: the typed error enumeration; the wrapper variants carry
external error payloads that are irrelevant here and are modelled as bare
constructors. -/
inductive Error where
  | io
  | mesh
  | parseInt
  | parseFloat
  | image
  | emptyMesh
  | zeroAreaImage
deriving DecidableEq

/-- One `image::Rgba<u8>` pixel; channel values are bytes. -/
structure Rgba where
  r : ℕ
  g : ℕ
  b : ℕ
  a : ℕ

/-- An `image::ImageBuffer<Rgba<u8>, _>`: a width, a height, and the pixel
at each coordinate. -/
structure Image where
  width : ℕ
  height : ℕ
  pixel : ℕ → ℕ → Rgba

/-- `ImageBuffer::enumerate_pixels`: every `(x, y, pixel)` triple in
row-major order. -/
def Image.enumerate_pixels (img : Image) : List (ℕ × ℕ × Rgba) :=
  (List.range img.height).flatMap
    (fun y => (List.range img.width).map (fun x => (x, y, img.pixel x y)))

/-- The body of the `non_transparent_bounds` loop: skip the pixel when its
alpha channel is zero, otherwise initialize or extend the running min/max
bounds. -/
def bounds_step (min_max : Option (Point2 ℕ × Point2 ℕ)) (xyp : ℕ × ℕ × Rgba) :
    Option (Point2 ℕ × Point2 ℕ) :=
  if xyp.2.2.a = 0 then
    min_max
  else
    match min_max with
    | none => some (⟨xyp.1, xyp.2.1⟩, ⟨xyp.1, xyp.2.1⟩)
    | some (mn, mx) =>
        some (⟨min mn.x xyp.1, min mn.y xyp.2.1⟩,
              ⟨max mx.x xyp.1, max mx.y xyp.2.1⟩)

/-- `render_stl::non_transparent_bounds`: the min and max (inclusive)
pixels of a 2D bounding box around any non-transparent content, skipping
every pixel whose alpha channel is zero. -/
def non_transparent_bounds (image : Image) : Option (Point2 ℕ × Point2 ℕ) :=
  image.enumerate_pixels.foldl bounds_step none

/-- `imageops::crop_imm(...).to_image()`: the `w × h` sub-image whose
top-left corner sits at `(x, y)`. -/
def crop_imm (img : Image) (x y w h : ℕ) : Image :=
  ⟨w, h, fun i j => img.pixel (x + i) (y + j)⟩

/-- `render_stl::crop_to_non_transparent`: fail with `ZeroAreaImage` when
no non-transparent pixel exists, otherwise crop to the inclusive bounds. -/
def crop_to_non_transparent (image : Image) : Except Error Image :=
  match non_transparent_bounds image with
  | none => Except.error Error.zeroAreaImage
  | some (crop_bounds_min, crop_bounds_max) =>
      let diag : Point2 ℕ := ⟨crop_bounds_max.x - crop_bounds_min.x,
                              crop_bounds_max.y - crop_bounds_min.y⟩
      Except.ok (crop_imm image crop_bounds_min.x crop_bounds_min.y
        (diag.x + 1) (diag.y + 1))

/-- `render_stl::max_distance_from_origin`: the square root of the maximum
squared distance between any vertex and the origin. -/
def max_distance_from_origin (mesh : MeshCrate.Mesh) : ℝ :=
  Real.sqrt (mesh.positions.foldl
    (fun acc p => max acc ((p - (⟨0, 0, 0⟩ : Point3)).magnitude2)) 0)

/-- Vector divided by a scalar, used by the mesh centering code. -/
instance : HDiv Vector3 ℝ Vector3 where
  hDiv v s := ⟨v.x / s, v.y / s, v.z / s⟩

/-- `render_stl::load_mesh`: build the mesh from the parsed STL triangles,
fail with `EmptyMesh` when it has no bounding box, then translate its
bounding-box center to the origin, scale it to the unit bounding sphere,
and flip the y axis for right-handed input. -/
def load_mesh (triangles : List MeshCrate.StlTriangle) (handedness : Handedness) :
    Except Error MeshCrate.Mesh :=
  let mesh0 := (MeshCrate.MeshBuilder.from_stl triangles).build
  match mesh0.bounding_box with
  | none => Except.error Error.emptyMesh
  | some (bounds_min, bounds_max) =>
      let center := bounds_min + (bounds_max - bounds_min) / (2 : ℝ)
      let center_to_origin :=
        Matrix4.from_translation ((⟨0, 0, 0⟩ : Point3) - center)
      let mesh1 := mesh0.transform center_to_origin
      let bounding_sphere_radius := max_distance_from_origin mesh1
      let mesh2 := mesh1.transform (Matrix4.from_scale (1 / bounding_sphere_radius))
      let mesh3 :=
        if handedness = Handedness.rightHanded then
          mesh2.transform_swapping_handedness (Matrix4.from_nonuniform_scale 1 (-1) 1)
        else
          mesh2
      Except.ok mesh3

/-- `render_stl::render_to_image`, modelled from the spec at the boundary
of the extracted sources: the scene, camera, film, filter and sampler setup
and the call to `ray_tracer::render` followed by `film.write_image()` are
collaborator code outside the extracted sources, so the raster they produce
is taken as the `rendered` parameter; mesh loading and transparent-border
cropping are modelled faithfully from `lib.rs`. -/
def render_to_image (triangles : List MeshCrate.StlTriangle) (config : Config)
    (rendered : Image) : Except Error Image :=
  match load_mesh triangles config.handedness with
  | Except.error e => Except.error e
  | Except.ok _mesh =>
      if config.crop then crop_to_non_transparent rendered else Except.ok rendered

end RenderStlCrate

/-- A concrete point light used to instantiate theorems about lights. -/
def demoPointLight : RayTracer.PointLight :=
  { position := ⟨0, 0, 0⟩, intensity := ⟨1, 1, 1, 1⟩ }

/-- A concrete surface interaction one unit away from `demoPointLight`. -/
def demoInteraction : RayTracer.SurfaceInteraction :=
  { point := ⟨0, 0, 1⟩
    point_error_bound := ⟨0, 0, 0⟩
    neg_ray_direction := ⟨0, 0, 1⟩
    original_geometry := ⟨⟨0, 0, 1⟩, ⟨1, 0, 0⟩, ⟨0, 1, 0⟩⟩
    shading_geometry := ⟨⟨0, 0, 1⟩, ⟨1, 0, 0⟩, ⟨0, 1, 0⟩⟩ }

/-- A concrete sampler over a natural-number state that always returns 0
and steps its state, used to instantiate sampler theorems. -/
def demoSampler : RayTracer.IncrementalSampler ℕ :=
  { clone_with_seed := fun s _ => s
    samples_per_pixel := fun _ => 1
    start_pixel := fun s _ => s
    get_1d := fun s => (0, s + 1)
    get_2d := fun s => (⟨0, 0⟩, s + 1)
    start_next_sample := fun s => (false, s + 1) }

/-- A concrete parsed STL triangle used to instantiate mesh theorems. -/
def demoStlTriangle : MeshCrate.StlTriangle :=
  { normal := ⟨0, 0, 1⟩
    vertices := (⟨0, 0, 0⟩, ⟨1, 0, 0⟩, ⟨0, 1, 0⟩) }

/-- A concrete rendering configuration with cropping enabled. -/
def demoConfig : RenderStlCrate.Config :=
  { width := 1
    height := 1
    crop := true
    sampler := RenderStlCrate.CfgSampler.stratifiedSampler 2 2 true
    lights := []
    camera := RenderStlCrate.CfgCamera.orthographicCamera ⟨1, 0, 0⟩ 0 2
    material := ⟨⟨1, 1, 1⟩, 0.05, 0.7, 0, 80⟩
    handedness := RenderStlCrate.Handedness.leftHanded }

/-- A concrete fully transparent one-by-one image. -/
def demoImage : RenderStlCrate.Image :=
  { width := 1, height := 1, pixel := fun _ _ => ⟨0, 0, 0, 0⟩ }

/-- Unfolding lemma for vector addition. -/
@[simp] theorem Vector3.vec_add_def (a b : Vector3) :
    a + b = ⟨a.x + b.x, a.y + b.y, a.z + b.z⟩ := rfl

/-- Unfolding lemma for vector subtraction. -/
@[simp] theorem Vector3.vec_sub_def (a b : Vector3) :
    a - b = ⟨a.x - b.x, a.y - b.y, a.z - b.z⟩ := rfl

/-- Unfolding lemma for scalar-times-vector multiplication. -/
@[simp] theorem Vector3.smul_def (s : ℝ) (v : Vector3) :
    s * v = (⟨s * v.x, s * v.y, s * v.z⟩ : Vector3) := rfl

/-- Unfolding lemma for vector-times-scalar multiplication. -/
@[simp] theorem Vector3.muls_def (v : Vector3) (s : ℝ) :
    v * s = (⟨v.x * s, v.y * s, v.z * s⟩ : Vector3) := rfl

/-- Unfolding lemma for point subtraction. -/
@[simp] theorem Point3.point_sub_def (a b : Point3) :
    a - b = (⟨a.x - b.x, a.y - b.y, a.z - b.z⟩ : Vector3) := rfl

/-- Unfolding lemma for point-plus-vector translation. -/
@[simp] theorem Point3.add_vec_def (p : Point3) (v : Vector3) :
    p + v = (⟨p.x + v.x, p.y + v.y, p.z + v.z⟩ : Point3) := rfl

/-- Claim C7: for every ray, at_t 0 equals the ray's origin, and at_t is
affine in t: at_t t equals origin plus t times the direction, componentwise
over the real-number model of the floating-point arithmetic. -/
theorem ray_at_t_affine (r : RayTracer.Ray) (t : ℝ) :
    r.at_t 0 = r.origin ∧
    r.at_t t = ⟨r.origin.x + t * r.direction.x,
                r.origin.y + t * r.direction.y,
                r.origin.z + t * r.direction.z⟩ := by
  constructor
  · simp [RayTracer.Ray.at_t]
  · simp [RayTracer.Ray.at_t, mul_comm]

/-- Claim C8: gamma n returns n·ε / (1 − n·ε) where ε is the machine epsilon
of the f32 floating type and n is converted to the floating type. -/
theorem gamma_formula (n : ℤ) :
    EFloat.gamma n = (n : ℝ) * EFloat.f32Epsilon / (1 - (n : ℝ) * EFloat.f32Epsilon) := by
  rfl

/-- Claim C10: the plane normal function returns the same vector whether
reverse_orientation is true or false, because the reverse_orientation branch
multiplies the normalized normal by 1.0. -/
theorem plane_normal_ignores_orientation (world_to_object : Matrix4) :
    Trace.Plane.normal world_to_object true = Trace.Plane.normal world_to_object false := by
  simp [Trace.Plane.normal]

/-- Claim C2: if the object-space direction's y component has absolute value
below the 0.0001 threshold, plane ray_intersections returns no intersections;
and the branch that divides to compute t is reached only when that absolute
value is at least the threshold, so a nonempty result implies the threshold
held. -/
theorem plane_parallel_ray_misses (ray : Trace.Ray)
    (object_to_world world_to_object : Matrix4) (reverse_orientation : Bool) :
    (|(Trace.transformRay world_to_object ray).direction.y| < 0.0001 →
      Trace.Plane.ray_intersections ray object_to_world world_to_object
        reverse_orientation = []) ∧
    (Trace.Plane.ray_intersections ray object_to_world world_to_object
        reverse_orientation ≠ [] →
      0.0001 ≤ |(Trace.transformRay world_to_object ray).direction.y|) := by
  constructor
  · intro h
    simp [Trace.Plane.ray_intersections, h]
  · intro hne
    by_contra hlt
    push_neg at hlt
    exact hne (by simp [Trace.Plane.ray_intersections, hlt])

/-- Witness for C2: a concrete ray parallel to the plane, with identity
transforms, produces an empty intersection list, while a concrete ray
descending onto the plane produces a nonempty one, so its object-space
direction's y component clears the threshold. -/
theorem plane_parallel_ray_misses_witness :
    (|(Trace.transformRay Matrix4.identity
        { origin := ⟨0, 1, 0⟩, direction := ⟨1, 0, 0⟩ }).direction.y| < 0.0001 ∧
      Trace.Plane.ray_intersections
        { origin := ⟨0, 1, 0⟩, direction := ⟨1, 0, 0⟩ }
        Matrix4.identity Matrix4.identity false = []) ∧
    (Trace.Plane.ray_intersections
        { origin := ⟨0, 1, 0⟩, direction := ⟨0, 1, 0⟩ }
        Matrix4.identity Matrix4.identity false ≠ [] ∧
      0.0001 ≤ |(Trace.transformRay Matrix4.identity
        { origin := ⟨0, 1, 0⟩, direction := ⟨0, 1, 0⟩ }).direction.y|) := by
  have h : |(Trace.transformRay Matrix4.identity
      { origin := ⟨0, 1, 0⟩, direction := ⟨1, 0, 0⟩ }).direction.y| < 0.0001 := by
    norm_num [Trace.transformRay, Matrix4.transformVector, Matrix4.identity]
  have hne : Trace.Plane.ray_intersections
      { origin := ⟨0, 1, 0⟩, direction := ⟨0, 1, 0⟩ }
      Matrix4.identity Matrix4.identity false ≠ [] := by
    norm_num [Trace.Plane.ray_intersections, Trace.transformRay,
      Matrix4.transformVector, Matrix4.identity]
  exact ⟨⟨h, (plane_parallel_ray_misses _ _ _ _).1 h⟩,
    ⟨hne, (plane_parallel_ray_misses _ _ _ _).2 hne⟩⟩

/-- Unfolding lemma for spectrum addition. -/
@[simp] theorem RgbaSpectrum.spectrum_add_def (s t : RgbaSpectrum) :
    s + t = ⟨s.r + t.r, s.g + t.g, s.b + t.b, s.a + t.a⟩ := rfl

/-- The zero spectrum is a left identity for spectrum addition. -/
theorem RgbaSpectrum.constant_zero_add (s : RgbaSpectrum) :
    RgbaSpectrum.constant 0 + s = s := by
  ext <;> simp [RgbaSpectrum.constant]

/-- The zero spectrum is a right identity for spectrum addition. -/
theorem RgbaSpectrum.add_constant_zero (s : RgbaSpectrum) :
    s + RgbaSpectrum.constant 0 = s := by
  ext <;> simp [RgbaSpectrum.constant]

/-- Spectrum addition is associative. -/
theorem RgbaSpectrum.add_assoc (s t u : RgbaSpectrum) :
    s + t + u = s + (t + u) := by
  ext <;> simp <;> ring

/-- The squared magnitude of a vector is nonnegative. -/
theorem Vector3.magnitude2_nonneg (v : Vector3) : 0 ≤ v.magnitude2 := by
  have hx := mul_self_nonneg v.x
  have hy := mul_self_nonneg v.y
  have hz := mul_self_nonneg v.z
  simp only [Vector3.magnitude2, Vector3.dot]
  linarith

/-- The squared magnitude of a vector vanishes only at the zero vector. -/
theorem Vector3.magnitude2_eq_zero (v : Vector3) :
    v.magnitude2 = 0 ↔ v = (⟨0, 0, 0⟩ : Vector3) := by
  constructor
  · intro h
    simp only [Vector3.magnitude2, Vector3.dot] at h
    have hx := mul_self_nonneg v.x
    have hy := mul_self_nonneg v.y
    have hz := mul_self_nonneg v.z
    have hx0 : v.x * v.x = 0 := by linarith
    have hy0 : v.y * v.y = 0 := by linarith
    have hz0 : v.z * v.z = 0 := by linarith
    ext
    · exact mul_self_eq_zero.mp hx0
    · exact mul_self_eq_zero.mp hy0
    · exact mul_self_eq_zero.mp hz0
  · intro h
    subst h
    simp [Vector3.magnitude2, Vector3.dot]

/-- Two distinct points are separated by a nonzero vector. -/
theorem Point3.sub_ne_zero (p q : Point3) (h : p ≠ q) :
    p - q ≠ (⟨0, 0, 0⟩ : Vector3) := by
  intro hv
  apply h
  rw [Point3.point_sub_def, Vector3.mk.injEq] at hv
  obtain ⟨h1, h2, h3⟩ := hv
  ext <;> linarith

/-- Scaling a vector squares the scalar in its squared magnitude. -/
theorem Vector3.magnitude2_muls (v : Vector3) (s : ℝ) :
    (v * s).magnitude2 = v.magnitude2 * (s * s) := by
  simp only [Vector3.muls_def, Vector3.magnitude2, Vector3.dot]
  ring

/-- Normalizing a nonzero vector yields a unit vector. -/
theorem Vector3.normalize_magnitude2 (v : Vector3)
    (h : v ≠ (⟨0, 0, 0⟩ : Vector3)) : v.normalize.magnitude2 = 1 := by
  have hd : 0 < v.magnitude2 :=
    lt_of_le_of_ne v.magnitude2_nonneg
      (fun h0 => h ((Vector3.magnitude2_eq_zero v).mp h0.symm))
  have hs : Real.sqrt v.magnitude2 * Real.sqrt v.magnitude2 = v.magnitude2 :=
    Real.mul_self_sqrt hd.le
  have hsne : Real.sqrt v.magnitude2 ≠ 0 :=
    ne_of_gt (Real.sqrt_pos.mpr hd)
  rw [Vector3.normalize, Vector3.magnitude2_muls, Vector3.magnitude]
  rw [div_mul_div_comm, one_mul, hs]
  field_simp

/-- The per-light shading term computed by the code agrees with the
per-light term as the specification words it. -/
theorem shading_eq_specLightTerm (material : RayTracer.Material)
    (light : RayTracer.Light) (interaction : RayTracer.SurfaceInteraction) :
    RayTracer.OriginalRayTracer.shading material light interaction =
      RayTracer.specLightTerm material interaction light := by
  cases light with
  | pointLight pl =>
    simp only [RayTracer.OriginalRayTracer.shading, RayTracer.specLightTerm,
      RayTracer.Light.li]
    set ldn := (pl.li interaction).2.dot interaction.original_geometry.normal with hldn
    set rde := (RayTracer.reflect ((-1 : ℝ) * (pl.li interaction).2)
      interaction.original_geometry.normal).dot interaction.neg_ray_direction with hrde
    rcases le_or_lt 0 ldn with h1 | h1
    · rw [if_pos h1, if_neg (not_lt.mpr h1)]
      rcases le_or_lt rde 0 with h2 | h2
      · rw [if_pos h2, if_pos (Or.inr h2)]
      · rw [if_neg (not_le.mpr h2),
          if_neg (by push_neg; exact ⟨h1, h2⟩ : ¬(ldn < 0 ∨ rde ≤ 0))]
    · rw [if_neg (not_le.mpr h1), if_pos h1, if_pos (Or.inl h1)]

/-- Folding the per-light shading terms over a light list equals the
accumulator plus the sum of the specified per-light terms. -/
theorem foldl_shading_eq_sum (material : RayTracer.Material)
    (interaction : RayTracer.SurfaceInteraction)
    (lights : List RayTracer.Light) (acc : RgbaSpectrum) :
    List.foldl
      (fun color light =>
        color + RayTracer.OriginalRayTracer.shading material light interaction)
      acc lights =
    acc + RayTracer.sumSpectra
      (lights.map (RayTracer.specLightTerm material interaction)) := by
  induction lights generalizing acc with
  | nil =>
    simp only [List.foldl_nil, List.map_nil, RayTracer.sumSpectra,
      RgbaSpectrum.add_constant_zero]
  | cons hd tl ih =>
    simp only [List.foldl_cons, List.map_cons, RayTracer.sumSpectra]
    rw [ih, shading_eq_specLightTerm, RgbaSpectrum.add_assoc]

/-- Claim C1: for every scene and ray, the radiance computed by color_at
equals, when the nearest-hit query returns a hit, the sum over all lights
of a per-light term ambient + diffuse + specular, with diffuse and specular
black when the cosine between the direction to the light and the surface
normal is negative, and specular additionally black unless the mirror
reflection of the light direction has positive cosine with the negated ray
direction, that cosine then being raised to the shininess exponent; and,
when the query returns no hit, the transparent color. -/
theorem color_at_matches_spec (scene : RayTracer.Scene) (ray : RayTracer.Ray) :
    RayTracer.OriginalRayTracer.color_at scene ray =
      RayTracer.colorAtSpec scene ray := by
  unfold RayTracer.OriginalRayTracer.color_at RayTracer.colorAtSpec
  cases h : scene.primitives.ray_intersection ray with
  | none => rfl
  | some hit =>
    obtain ⟨t, primitive, interaction⟩ := hit
    simp only [RayTracer.OriginalRayTracer.shade_surface_interaction]
    rw [foldl_shading_eq_sum, RgbaSpectrum.constant_zero_add]

/-- Claim C4: for a point light at position p with intensity I and an
interaction at point q with p ≠ q: li returns I divided by the squared
magnitude of p − q together with the normalized direction from q toward p,
and that direction is a unit vector; power returns 4π·I; flags returns
exactly the delta-position flag; and sample_li returns the same radiance
and direction as li with probability weight 1. -/
theorem point_light_properties (pl : RayTracer.PointLight)
    (interaction : RayTracer.SurfaceInteraction)
    (h : pl.position ≠ interaction.point) :
    pl.li interaction =
      (pl.intensity / (pl.position - interaction.point).magnitude2,
       (pl.position - interaction.point).normalize) ∧
    ((pl.li interaction).2).magnitude2 = 1 ∧
    (RayTracer.Light.pointLight pl).power = (4 * Real.pi : ℝ) * pl.intensity ∧
    (RayTracer.Light.pointLight pl).flags = RayTracer.LightFlags.DELTA_POSITION ∧
    ∀ u : Point2 ℝ,
      (RayTracer.Light.pointLight pl).sample_li interaction u =
        ((pl.li interaction).1, (pl.li interaction).2, 1) := by
  refine ⟨rfl, ?_, rfl, rfl, fun u => rfl⟩
  show ((pl.position - interaction.point).normalize).magnitude2 = 1
  exact Vector3.normalize_magnitude2 _ (Point3.sub_ne_zero _ _ h)

/-- The square root of four, used when evaluating sphere discriminants. -/
theorem sqrt_four_eq_two : Real.sqrt 4 = 2 := by
  rw [show (4 : ℝ) = 2 ^ 2 by norm_num, Real.sqrt_sq (by norm_num : (0 : ℝ) ≤ 2)]

/-- Claim C6: sphere ray_intersections on the unit sphere with identity
transforms returns, for the five reference rays with direction (0,0,1):
origin (0,0,-5) hits t = 4 and t = 6 in order; origin (0,1,-5) a tangent
with both roots 5; origin (0,2,-5) no hits; origin (0,0,0) hits t = -1 and
t = 1; origin (0,0,5) hits t = -6 and t = -4. -/
theorem sphere_reference_intersections :
    (((Trace.Sphere.mk Matrix4.identity Matrix4.identity).ray_intersections
        ⟨⟨0, 0, -5⟩, ⟨0, 0, 1⟩⟩).values.map Trace.Intersection.t = [4, 6]) ∧
    (((Trace.Sphere.mk Matrix4.identity Matrix4.identity).ray_intersections
        ⟨⟨0, 1, -5⟩, ⟨0, 0, 1⟩⟩).values.map Trace.Intersection.t = [5, 5]) ∧
    (((Trace.Sphere.mk Matrix4.identity Matrix4.identity).ray_intersections
        ⟨⟨0, 2, -5⟩, ⟨0, 0, 1⟩⟩).values.map Trace.Intersection.t = []) ∧
    (((Trace.Sphere.mk Matrix4.identity Matrix4.identity).ray_intersections
        ⟨⟨0, 0, 0⟩, ⟨0, 0, 1⟩⟩).values.map Trace.Intersection.t = [-1, 1]) ∧
    (((Trace.Sphere.mk Matrix4.identity Matrix4.identity).ray_intersections
        ⟨⟨0, 0, 5⟩, ⟨0, 0, 1⟩⟩).values.map Trace.Intersection.t = [-6, -4]) := by
  refine ⟨?_, ?_, ?_, ?_, ?_⟩ <;>
    simp only [Trace.Sphere.ray_intersections, Vector3.dot, Point3.point_sub_def,
      Trace.Intersections.empty, Trace.Intersections.new] <;>
    norm_num [sqrt_four_eq_two]

/-- Witness for C4: the point-light properties at a concrete light and a
concrete interaction one unit away. -/
theorem point_light_properties_witness :
    demoPointLight.position ≠ demoInteraction.point ∧
    (demoPointLight.li demoInteraction =
      (demoPointLight.intensity /
        (demoPointLight.position - demoInteraction.point).magnitude2,
       (demoPointLight.position - demoInteraction.point).normalize) ∧
     ((demoPointLight.li demoInteraction).2).magnitude2 = 1 ∧
     (RayTracer.Light.pointLight demoPointLight).power =
       (4 * Real.pi : ℝ) * demoPointLight.intensity ∧
     (RayTracer.Light.pointLight demoPointLight).flags =
       RayTracer.LightFlags.DELTA_POSITION ∧
     ∀ u : Point2 ℝ,
       (RayTracer.Light.pointLight demoPointLight).sample_li demoInteraction u =
         ((demoPointLight.li demoInteraction).1,
          (demoPointLight.li demoInteraction).2, 1)) := by
  have h : demoPointLight.position ≠ demoInteraction.point := by
    simp [demoPointLight, demoInteraction, Point3.mk.injEq]
  exact ⟨h, point_light_properties demoPointLight demoInteraction h⟩

/-- Claim C5: get_camera_sample consumes one 2D sample for the film point,
then one 1D sample for the time, then one 2D sample for the lens point, in
that order, and when all sampler values lie in the unit interval the film
point lies in the unit square anchored at the pixel. -/
theorem get_camera_sample_order {σ : Type}
    (sampler : RayTracer.IncrementalSampler σ) (s : σ) (pixel : Point2 ℤ)
    (h2 : ∀ st, 0 ≤ (sampler.get_2d st).1.x ∧ (sampler.get_2d st).1.x < 1 ∧
      0 ≤ (sampler.get_2d st).1.y ∧ (sampler.get_2d st).1.y < 1)
    (h1 : ∀ st, 0 ≤ (sampler.get_1d st).1 ∧ (sampler.get_1d st).1 < 1) :
    (sampler.get_camera_sample s pixel).2 =
      (sampler.get_2d (sampler.get_1d (sampler.get_2d s).2).2).2 ∧
    (sampler.get_camera_sample s pixel).1.film_point =
      ⟨(pixel.x : ℝ) + (sampler.get_2d s).1.x,
       (pixel.y : ℝ) + (sampler.get_2d s).1.y⟩ ∧
    (sampler.get_camera_sample s pixel).1.time =
      (sampler.get_1d (sampler.get_2d s).2).1 ∧
    (sampler.get_camera_sample s pixel).1.lens_point =
      (sampler.get_2d (sampler.get_1d (sampler.get_2d s).2).2).1 ∧
    ((pixel.x : ℝ) ≤ (sampler.get_camera_sample s pixel).1.film_point.x ∧
      (sampler.get_camera_sample s pixel).1.film_point.x < (pixel.x : ℝ) + 1) ∧
    ((pixel.y : ℝ) ≤ (sampler.get_camera_sample s pixel).1.film_point.y ∧
      (sampler.get_camera_sample s pixel).1.film_point.y < (pixel.y : ℝ) + 1) := by
  obtain ⟨hx0, hx1, hy0, hy1⟩ := h2 s
  refine ⟨rfl, rfl, rfl, rfl, ⟨?_, ?_⟩, ⟨?_, ?_⟩⟩ <;>
    simp only [RayTracer.IncrementalSampler.get_camera_sample] <;> linarith

/-- Witness for C5: get_camera_sample of the concrete sampler at pixel
(2, 3) from state 0. -/
theorem get_camera_sample_order_witness :
    (∀ st, 0 ≤ (demoSampler.get_2d st).1.x ∧ (demoSampler.get_2d st).1.x < 1 ∧
      0 ≤ (demoSampler.get_2d st).1.y ∧ (demoSampler.get_2d st).1.y < 1) ∧
    (∀ st, 0 ≤ (demoSampler.get_1d st).1 ∧ (demoSampler.get_1d st).1 < 1) ∧
    ((demoSampler.get_camera_sample 0 ⟨2, 3⟩).2 =
      (demoSampler.get_2d (demoSampler.get_1d (demoSampler.get_2d 0).2).2).2 ∧
    (demoSampler.get_camera_sample 0 ⟨2, 3⟩).1.film_point =
      ⟨(((⟨2, 3⟩ : Point2 ℤ).x : ℝ) + (demoSampler.get_2d 0).1.x),
       (((⟨2, 3⟩ : Point2 ℤ).y : ℝ) + (demoSampler.get_2d 0).1.y)⟩ ∧
    (demoSampler.get_camera_sample 0 ⟨2, 3⟩).1.time =
      (demoSampler.get_1d (demoSampler.get_2d 0).2).1 ∧
    (demoSampler.get_camera_sample 0 ⟨2, 3⟩).1.lens_point =
      (demoSampler.get_2d (demoSampler.get_1d (demoSampler.get_2d 0).2).2).1 ∧
    ((((⟨2, 3⟩ : Point2 ℤ).x : ℝ) ≤ (demoSampler.get_camera_sample 0 ⟨2, 3⟩).1.film_point.x ∧
      (demoSampler.get_camera_sample 0 ⟨2, 3⟩).1.film_point.x < ((⟨2, 3⟩ : Point2 ℤ).x : ℝ) + 1) ∧
    ((((⟨2, 3⟩ : Point2 ℤ).y : ℝ)) ≤ (demoSampler.get_camera_sample 0 ⟨2, 3⟩).1.film_point.y ∧
      (demoSampler.get_camera_sample 0 ⟨2, 3⟩).1.film_point.y < ((⟨2, 3⟩ : Point2 ℤ).y : ℝ) + 1))) := by
  have h2 : ∀ st : ℕ, 0 ≤ (demoSampler.get_2d st).1.x ∧
      (demoSampler.get_2d st).1.x < 1 ∧
      0 ≤ (demoSampler.get_2d st).1.y ∧ (demoSampler.get_2d st).1.y < 1 :=
    fun st => ⟨le_refl 0, one_pos, le_refl 0, one_pos⟩
  have h1 : ∀ st : ℕ, 0 ≤ (demoSampler.get_1d st).1 ∧ (demoSampler.get_1d st).1 < 1 :=
    fun st => ⟨le_refl 0, one_pos⟩
  exact ⟨h2, h1, get_camera_sample_order demoSampler 0 ⟨2, 3⟩ h2 h1⟩

/-- The position array produced from n parsed triangles has 3·n entries. -/
theorem stlPositions_length (triangles : List MeshCrate.StlTriangle) :
    (MeshCrate.stlPositions triangles).length = 3 * triangles.length := by
  induction triangles with
  | nil => simp [MeshCrate.stlPositions]
  | cons t rest ih =>
    simp only [MeshCrate.stlPositions, List.length_cons, ih]
    omega

/-- The normal array produced from n parsed triangles has 3·n entries. -/
theorem stlNormals_length (triangles : List MeshCrate.StlTriangle) :
    (MeshCrate.stlNormals triangles).length = 3 * triangles.length := by
  induction triangles with
  | nil => simp [MeshCrate.stlNormals]
  | cons t rest ih =>
    simp only [MeshCrate.stlNormals, List.length_cons, ih]
    omega

/-- Claim C9: every mesh produced by MeshBuilder::from_stl followed by
build satisfies the mesh invariant: positions and normals have equal
length, three entries per parsed triangle; every index of every triangle
index triple is strictly below the position count; and UVs are absent, so
the UV-length condition holds vacuously. -/
theorem mesh_from_stl_invariant (triangles : List MeshCrate.StlTriangle) :
    ((MeshCrate.MeshBuilder.from_stl triangles).build).positions.length =
      ((MeshCrate.MeshBuilder.from_stl triangles).build).normals.length ∧
    ((MeshCrate.MeshBuilder.from_stl triangles).build).positions.length =
      3 * triangles.length ∧
    (∀ tri ∈ ((MeshCrate.MeshBuilder.from_stl triangles).build).triangle_vertex_indices,
      tri.1 < ((MeshCrate.MeshBuilder.from_stl triangles).build).positions.length ∧
      tri.2.1 < ((MeshCrate.MeshBuilder.from_stl triangles).build).positions.length ∧
      tri.2.2 < ((MeshCrate.MeshBuilder.from_stl triangles).build).positions.length) ∧
    ((MeshCrate.MeshBuilder.from_stl triangles).build).uvs = none := by
  have hp : ((MeshCrate.MeshBuilder.from_stl triangles).build).positions.length =
      3 * triangles.length := by
    simp [MeshCrate.MeshBuilder.build, MeshCrate.Mesh.transform,
      MeshCrate.MeshBuilder.from_stl, MeshCrate.MeshBuilder.new, stlPositions_length]
  have hn : ((MeshCrate.MeshBuilder.from_stl triangles).build).normals.length =
      3 * triangles.length := by
    simp [MeshCrate.MeshBuilder.build, MeshCrate.Mesh.transform,
      MeshCrate.MeshBuilder.from_stl, MeshCrate.MeshBuilder.new, stlNormals_length]
  refine ⟨hp.trans hn.symm, hp, ?_, rfl⟩
  intro tri htri
  rw [hp]
  have heq : ((MeshCrate.MeshBuilder.from_stl triangles).build).triangle_vertex_indices =
      (List.range triangles.length).map (fun i => (3 * i, 3 * i + 1, 3 * i + 2)) := rfl
  rw [heq] at htri
  simp only [List.mem_map, List.mem_range] at htri
  obtain ⟨i, hi, rfl⟩ := htri
  refine ⟨?_, ?_, ?_⟩
  · show 3 * i < 3 * triangles.length
    omega
  · show 3 * i + 1 < 3 * triangles.length
    omega
  · show 3 * i + 2 < 3 * triangles.length
    omega

/-- Folding the bounds step over pixels that are all transparent leaves the
accumulator at none. -/
theorem foldl_bounds_step_none (l : List (ℕ × ℕ × RenderStlCrate.Rgba))
    (h : ∀ e ∈ l, e.2.2.a = 0) :
    l.foldl RenderStlCrate.bounds_step none = none := by
  induction l with
  | nil => rfl
  | cons e rest ih =>
    have he : e.2.2.a = 0 := h e (List.mem_cons_self e rest)
    have hrest : ∀ x ∈ rest, x.2.2.a = 0 := fun x hx => h x (List.mem_cons_of_mem e hx)
    simp only [List.foldl_cons, RenderStlCrate.bounds_step, he, if_pos]
    exact ih hrest

/-- A fully transparent image has no non-transparent bounds. -/
theorem non_transparent_bounds_none (img : RenderStlCrate.Image)
    (h : ∀ x y, x < img.width → y < img.height → (img.pixel x y).a = 0) :
    RenderStlCrate.non_transparent_bounds img = none := by
  apply foldl_bounds_step_none
  intro e he
  simp only [RenderStlCrate.Image.enumerate_pixels, List.mem_flatMap,
    List.mem_map, List.mem_range] at he
  obtain ⟨y, hy, x, hx, rfl⟩ := he
  exact h x y hx hy

/-- Loading a nonempty triangle list always produces a mesh. -/
theorem load_mesh_cons_ok (t : MeshCrate.StlTriangle)
    (rest : List MeshCrate.StlTriangle) (handedness : RenderStlCrate.Handedness) :
    ∃ m, RenderStlCrate.load_mesh (t :: rest) handedness = Except.ok m := by
  simp only [RenderStlCrate.load_mesh, MeshCrate.MeshBuilder.build,
    MeshCrate.MeshBuilder.from_stl, MeshCrate.MeshBuilder.new,
    MeshCrate.Mesh.transform, MeshCrate.stlPositions, List.map_cons,
    MeshCrate.Mesh.bounding_box]
  exact ⟨_, rfl⟩

/-- Claim C3: render_to_image fails with the EmptyMesh error when the
parsed mesh has no vertex positions (its bounding box is none), for every
rendered image; and when cropping is enabled and every pixel of the
rendered image is fully transparent, it fails with the ZeroAreaImage
error. -/
theorem render_to_image_degenerate_errors (config : RenderStlCrate.Config)
    (rendered : RenderStlCrate.Image) (triangles : List MeshCrate.StlTriangle) :
    RenderStlCrate.render_to_image [] config rendered =
      Except.error RenderStlCrate.Error.emptyMesh ∧
    (triangles ≠ [] → config.crop = true →
      (∀ x y, x < rendered.width → y < rendered.height →
        (rendered.pixel x y).a = 0) →
      RenderStlCrate.render_to_image triangles config rendered =
        Except.error RenderStlCrate.Error.zeroAreaImage) := by
  constructor
  · rfl
  · intro hne hcrop halpha
    obtain ⟨t, rest, rfl⟩ := List.exists_cons_of_ne_nil hne
    obtain ⟨m, hm⟩ := load_mesh_cons_ok t rest config.handedness
    simp only [RenderStlCrate.render_to_image, hm, hcrop, if_pos,
      RenderStlCrate.crop_to_non_transparent,
      non_transparent_bounds_none rendered halpha]

/-- Witness for C3: a concrete empty triangle list yields the EmptyMesh
error, and a concrete one-triangle list with cropping enabled and a fully
transparent rendered image yields the ZeroAreaImage error. -/
theorem render_to_image_degenerate_errors_witness :
    RenderStlCrate.render_to_image [] demoConfig demoImage =
      Except.error RenderStlCrate.Error.emptyMesh ∧
    [demoStlTriangle] ≠ [] ∧
    demoConfig.crop = true ∧
    (∀ x y, x < demoImage.width → y < demoImage.height →
      (demoImage.pixel x y).a = 0) ∧
    RenderStlCrate.render_to_image [demoStlTriangle] demoConfig demoImage =
      Except.error RenderStlCrate.Error.zeroAreaImage := by
  have hne : [demoStlTriangle] ≠ [] := by simp
  have hcrop : demoConfig.crop = true := rfl
  have halpha : ∀ x y, x < demoImage.width → y < demoImage.height →
      (demoImage.pixel x y).a = 0 := by
    intro x y _ _
    rfl
  exact ⟨(render_to_image_degenerate_errors demoConfig demoImage []).1,
    hne, hcrop, halpha,
    (render_to_image_degenerate_errors demoConfig demoImage [demoStlTriangle]).2
      hne hcrop halpha⟩

end RenderStl
